import Mathlib

/-!
# Verification of the temporal caption / silence-removal pipeline

Shallow embedding of the pure core of the repository's services:
* `services/temporal_captions.py` — `group_words_by_temporal_proximity`
* `services/simple_editor.py` — `detect_gaps`
* `services/shorts.py` — the segment/gap building loop of
  `remove_silence_from_video`, and `parse_timestamp_to_seconds`
* `services/bestof.py` — `parse_timestamp_to_seconds`
* `services/captions.py` — `calculate_fit_font_size`, and the
  alignment/margin and dialogue-event computations of `generate_ass_subtitles`

Python floats are modelled as exact rationals (ℚ); Python `int(...)`
truncation of a non-negative quotient is modelled by natural-number floor
division.  Fallible Python code (TypeError on `float > None`, ValueError on
`int(...)`) is modelled with `Except`.
-/

/-- Python `str.strip()`: drop leading and trailing whitespace.  Modelled over
the character list so that concrete instances evaluate in the kernel. -/
def pyStrip (s : String) : String :=
  (((s.toList.dropWhile Char.isWhitespace).reverse.dropWhile
      Char.isWhitespace).reverse).asString

/-- A transcribed word: Python dict `{'word': str, 'start': float, 'end': float}`.
The Python key `end` is a Lean keyword, rendered here as `endT`. -/
structure Word where
  word : String
  start : ℚ
  endT : ℚ
deriving DecidableEq, Repr

/-- A word inside a caption group as built by `_build_caption_group`
(`temporal_captions.py`): text stripped, plus its index in the group. -/
structure CapWord where
  word : String
  start : ℚ
  endT : ℚ
  index_in_group : ℕ
deriving DecidableEq, Repr

/-- A caption group (`temporal_captions.py`, `_build_caption_group`). -/
structure CaptionGroup where
  text : String
  words : List CapWord
  start : ℚ
  endT : ℚ
deriving DecidableEq, Repr

/-- A detected silence gap (`simple_editor.py` / `shorts.py`). -/
structure Gap where
  start : ℚ
  endT : ℚ
  duration : ℚ
deriving DecidableEq, Repr

/-- A kept segment (`shorts.py`, `remove_silence_from_video`). -/
structure Segment where
  start : ℚ
  endT : ℚ
deriving DecidableEq, Repr

/-! ## Temporal grouping (`temporal_captions.py`) -/

/-- `_build_caption_group(words)` from `temporal_captions.py`: strips each
word's text, records the group-local index, and takes the group's start/end
from the first/last word.  On the empty list Python would raise `IndexError`
(reachable only when `max_words_per_group = 0`); the model returns 0 there. -/
def build_caption_group (ws : List Word) : CaptionGroup :=
  let caption_words := ws.enum.map fun p =>
    { word := pyStrip p.2.word, start := p.2.start, endT := p.2.endT
      index_in_group := p.1 : CapWord }
  { text := " ".intercalate (caption_words.map (·.word))
    words := caption_words
    start := ((ws.head?).map (·.start)).getD 0
    endT := ((ws.getLast?).map (·.endT)).getD 0 }

/-- One iteration of the loop in `group_words_by_temporal_proximity`:
first the silence check (`if current_group: if gap > silence_threshold:
close`), then the size check (`if len(current_group) >= max: close`), then
`current_group.append(word)`.  Returns the groups emitted this iteration and
the new `current_group`. -/
def groupStep (maxW : ℕ) (t : ℚ) (cur : List Word) (w : Word) :
    List (List Word) × List Word :=
  let p1 : List (List Word) × List Word :=
    match cur.getLast? with
    | some prev =>
        if t < w.start - prev.endT then ([cur], []) else ([], cur)
    | none => ([], cur)
  let p2 : List (List Word) × List Word :=
    if maxW ≤ p1.2.length then (p1.1 ++ [p1.2], []) else p1
  (p2.1, p2.2 ++ [w])

/-- The loop of `group_words_by_temporal_proximity`, producing the raw groups
(lists of input words) before `_build_caption_group` is applied; `cur` is the
Python `current_group`, and the trailing non-empty group is flushed at the
end. -/
def groupLoop (maxW : ℕ) (t : ℚ) : List Word → List Word → List (List Word)
  | cur, [] => if cur = [] then [] else [cur]
  | cur, w :: rest =>
      (groupStep maxW t cur w).1 ++ groupLoop maxW t (groupStep maxW t cur w).2 rest

/-- `group_words_by_temporal_proximity(words, max_words_per_group,
silence_threshold)` from `temporal_captions.py`, for a numeric (non-`None`)
silence threshold. -/
def group_words_by_temporal_proximity (words : List Word) (maxW : ℕ) (t : ℚ) :
    List CaptionGroup :=
  (groupLoop maxW t [] words).map build_caption_group

/-- Python's `gap > silence_threshold` when `silence_threshold` may be `None`:
`float > None` raises `TypeError` in Python 3. -/
def pyGtOpt (gap : ℚ) : Option ℚ → Except String Bool
  | some t => .ok (decide (t < gap))
  | none => .error "TypeError: not supported between instances of float and NoneType"

/-- The raw-group loop of `group_words_by_temporal_proximity` with an optional
(`None`-able) `silence_threshold`, propagating Python's `TypeError` from the
comparison `gap > silence_threshold`. -/
def groupLoopPy (maxW : ℕ) (t : Option ℚ) :
    List Word → List Word → Except String (List (List Word))
  | cur, [] => .ok (if cur = [] then [] else [cur])
  | cur, w :: rest => do
      let silenceSplit : Bool ←
        match cur.getLast? with
        | some prev => pyGtOpt (w.start - prev.endT) t
        | none => pure false
      let p1 : List (List Word) × List Word :=
        if silenceSplit then ([cur], []) else ([], cur)
      let p2 : List (List Word) × List Word :=
        if maxW ≤ p1.2.length then (p1.1 ++ [p1.2], []) else p1
      let tailGroups ← groupLoopPy maxW t (p2.2 ++ [w]) rest
      pure (p2.1 ++ tailGroups)

/-- `group_words_by_temporal_proximity` as Python executes it when
`silence_threshold` may be `None` (`null`). -/
def group_words_by_temporal_proximity_py (words : List Word) (maxW : ℕ)
    (t : Option ℚ) : Except String (List CaptionGroup) :=
  (groupLoopPy maxW t [] words).map (List.map build_caption_group)

/-! ## Gap detection (`simple_editor.py`, `detect_gaps`) -/

/-- `detect_gaps(words, min_gap_duration)` from `simple_editor.py`: for each
consecutive pair (`for i in range(len(words) - 1)`), emit a gap when
`gap_duration >= min_gap_duration`, with `start = words[i].end`,
`end = words[i+1].start`, `duration = end - start`. -/
def detect_gaps : List Word → ℚ → List Gap
  | [], _ => []
  | [_], _ => []
  | a :: b :: rest, minGap =>
      (if minGap ≤ b.start - a.endT
        then [{ start := a.endT, endT := b.start, duration := b.start - a.endT : Gap }]
        else []) ++ detect_gaps (b :: rest) minGap

/-! ## Silence-removal segment building (`shorts.py`, `remove_silence_from_video`) -/

/-- Python `segments[-1]['end'] = word_end`: replace the last segment's end.
Unreachable on `[]` in the source (a segment is always created first). -/
def updateLastEnd (segs : List Segment) (e : ℚ) : List Segment :=
  match segs.getLast? with
  | some s => segs.dropLast ++ [{ s with endT := e }]
  | none => []

/-- One iteration (for `i > 0`) of the segment/gap loop in
`remove_silence_from_video` (`shorts.py`): with `gap = word.start - prev.end`,
if `gap > min_gap_duration` record the gap and open a new segment at
`max(0, word.start - padding)`, else extend the last segment's end to
`word.end + padding`.  State: (segments so far, gaps so far, previous word). -/
def silenceStep (pad minGap : ℚ) (st : List Segment × List Gap × Word)
    (w : Word) : List Segment × List Gap × Word :=
  let segs := st.1
  let gaps := st.2.1
  let prev := st.2.2
  let word_start := max 0 (w.start - pad)
  let word_end := w.endT + pad
  let gap := w.start - prev.endT
  if minGap < gap then
    (segs ++ [{ start := word_start, endT := word_end }],
     gaps ++ [{ start := prev.endT, endT := w.start, duration := gap }], w)
  else
    (updateLastEnd segs word_end, gaps, w)

/-- The segment/gap building loop of `remove_silence_from_video`
(`shorts.py`): the first word opens `[max(0, start - padding), end + padding]`,
each later word either extends the open segment or (on a gap
`> min_gap_duration`) records the gap and opens a new segment. -/
def remove_silence_segments (pad minGap : ℚ) :
    List Word → List Segment × List Gap
  | [] => ([], [])
  | w0 :: rest =>
      let init : List Segment × List Gap × Word :=
        ([{ start := max 0 (w0.start - pad), endT := w0.endT + pad }], [], w0)
      let fin := rest.foldl (silenceStep pad minGap) init
      (fin.1, fin.2.1)

/-- Modelled from the spec (claim C2's wording, for comparison with
`remove_silence_segments`): walk the words carrying the open segment's start
and the previous word; split exactly when the gap is **at least**
`min_gap_duration` (`≥`), closing at `prev.end + padding` and opening the next
segment at `word.start - padding` **without** clamping (the claim clamps only
the first segment); record each splitting gap. -/
def specSegLoopGe (pad minGap : ℚ) (curStart : ℚ) (prev : Word) :
    List Word → List Segment × List Gap
  | [] => ([{ start := curStart, endT := prev.endT + pad }], [])
  | w :: rest =>
      if minGap ≤ w.start - prev.endT then
        let nxt := specSegLoopGe pad minGap (w.start - pad) w rest
        ({ start := curStart, endT := prev.endT + pad } :: nxt.1,
         { start := prev.endT, endT := w.start, duration := w.start - prev.endT } :: nxt.2)
      else
        specSegLoopGe pad minGap curStart w rest

/-- Modelled from the spec (claim C2 as stated): segments and gaps as the
claim describes them, with the `≥` split rule and first-segment-only clamp. -/
def build_segments_spec_ge (pad minGap : ℚ) : List Word → List Segment × List Gap
  | [] => ([], [])
  | w0 :: rest => specSegLoopGe pad minGap (max 0 (w0.start - pad)) w0 rest

/-- The amended spec-side description: split strictly when the gap exceeds
`min_gap_duration` (`>`), and clamp **every** opened segment's start at 0. -/
def specSegLoopGt (pad minGap : ℚ) (curStart : ℚ) (prev : Word) :
    List Word → List Segment × List Gap
  | [] => ([{ start := curStart, endT := prev.endT + pad }], [])
  | w :: rest =>
      if minGap < w.start - prev.endT then
        let nxt := specSegLoopGt pad minGap (max 0 (w.start - pad)) w rest
        ({ start := curStart, endT := prev.endT + pad } :: nxt.1,
         { start := prev.endT, endT := w.start, duration := w.start - prev.endT } :: nxt.2)
      else
        specSegLoopGt pad minGap curStart w rest

/-- The amended spec-side segment builder (strict `>` split, all starts
clamped at 0). -/
def build_segments_spec_gt (pad minGap : ℚ) : List Word → List Segment × List Gap
  | [] => ([], [])
  | w0 :: rest => specSegLoopGt pad minGap (max 0 (w0.start - pad)) w0 rest

/-! ## Font fitting (`captions.py`, `calculate_fit_font_size`) -/

/-- The fallback branch of `measure_text_width` (`captions.py`):
`int(len(text) * font_size * 0.6)`, the bold-font heuristic used when no font
file is available.  Exact rational arithmetic models the float product. -/
def measure_text_width_fallback (text : String) (font_size : ℕ) : ℕ :=
  (text.length * font_size * 6) / 10

/-- `calculate_fit_font_size` (`captions.py`), parameterized by the measured
pixel width of the text at `target_size` (the measurement itself reads font
files from disk; only its integer result matters here).  If the text fits,
return `target_size`; otherwise scale down by `max_width / width`
(`int(target_size * scale)` = floor) and clamp below at `min_size`. -/
def calculate_fit_font_size (width : ℕ) (target_size max_width min_size : ℕ) : ℕ :=
  if width ≤ max_width then target_size
  else max (target_size * max_width / width) min_size

/-! ## Vertical position → alignment/margin (`captions.py`,
`generate_ass_subtitles`) -/

/-- The alignment chosen by `generate_ass_subtitles` from `position_y`
(a percentage): `<= 33` → ASS alignment 8 (top-center), `<= 66` → 5
(middle-center), else → 2 (bottom-center). -/
def ass_alignment (position_y : ℕ) : ℕ :=
  if position_y ≤ 33 then 8
  else if position_y ≤ 66 then 5
  else 2

/-- The `MarginV` chosen by `generate_ass_subtitles`:
top → `int(video_height * (position_y / 100))`, middle → 0,
bottom → `int(video_height * ((100 - position_y) / 100))`.  Floor division
models `int(...)` of the non-negative float product. -/
def ass_margin_v (position_y video_height : ℕ) : ℕ :=
  if position_y ≤ 33 then video_height * position_y / 100
  else if position_y ≤ 66 then 0
  else video_height * (100 - position_y) / 100

/-- Spec-side vertical anchoring (top / middle / bottom thirds). -/
inductive VertAnchor where
  | top
  | middle
  | bottom
deriving DecidableEq, Repr

/-- Modelled from the spec (claim C7's trichotomy): `pct <= 33` → top,
`34 <= pct <= 66` → middle, `pct > 66` → bottom. -/
def specAnchor (pct : ℕ) : VertAnchor :=
  if pct ≤ 33 then .top
  else if pct ≤ 66 then .middle
  else .bottom

/-- The meaning of the ASS alignment codes used by the source: 8 is
top-center, 5 is middle-center, 2 is bottom-center. -/
def assAlignmentAnchor (a : ℕ) : Option VertAnchor :=
  if a = 8 then some .top
  else if a = 5 then some .middle
  else if a = 2 then some .bottom
  else none

/-! ## Dialogue events (`captions.py`, `generate_ass_subtitles` event loop) -/

/-- One `Dialogue:` line of the generated ASS track, reduced to its timing
and which word it highlights (the styling/text payload is a pure function of
these and the group). -/
structure DialogueLine where
  lineStart : ℚ
  lineEnd : ℚ
  highlightIdx : ℕ
deriving DecidableEq, Repr

/-- The inner loop of `generate_ass_subtitles`: for word `i`,
`word_end = words[i + 1]['start'] if i < len(words) - 1 else group_end`
(here: the head of the remaining words, if any); exactly one dialogue line is
appended per word. -/
def dialogueLinesAux (group_end : ℚ) (i : ℕ) : List CapWord → List DialogueLine
  | [] => []
  | w :: rest =>
      { lineStart := w.start
        lineEnd := match rest.head? with
          | some nxt => nxt.start
          | none => group_end
        highlightIdx := i } :: dialogueLinesAux group_end (i + 1) rest

/-- The event section of `generate_ass_subtitles`: one dialogue line per
(caption group, word index), in group order then word order. -/
def generate_ass_dialogue_lines (captions : List CaptionGroup) : List DialogueLine :=
  captions.flatMap fun c => dialogueLinesAux c.endT 0 c.words

/-- Modelled from the spec (claim C9): per group, the active intervals are
`[word[i].start, word[i+1].start)` and `[word[last].start, group.end)` —
i.e. word starts zipped against the successor starts extended by the group
end. -/
def specIntervals (c : CaptionGroup) : List (ℚ × ℚ) :=
  (c.words.map (·.start)).zip ((c.words.tail.map (·.start)) ++ [c.endT])

/-! ## Timestamp parsing (`shorts.py` / `bestof.py`,
`parse_timestamp_to_seconds`) -/

/-- Python `s.split(sep)` for a single-character separator, over the character
list (kernel-computable, unlike `String.splitOn`): `"".split(":") = [""]`,
`"a:".split(":") = ["a", ""]`, etc. -/
def pySplitAux (sep : Char) : List Char → List Char → List String
  | acc, [] => [acc.reverse.asString]
  | acc, c :: cs =>
      if c = sep then acc.reverse.asString :: pySplitAux sep [] cs
      else pySplitAux sep (c :: acc) cs

/-- Python `s.split(sep)` (single-character separator). -/
def pySplit (s : String) (sep : Char) : List String :=
  pySplitAux sep [] s.toList

/-- Python `int(s)` on a string: strips whitespace, then parses an optionally
signed decimal integer; raises `ValueError` otherwise (sign/underscore corner
cases are irrelevant to the claims below, which never reach this parse). -/
def pyInt (s : String) : Except String Int :=
  match (pyStrip s).toInt? with
  | some n => .ok n
  | none => .error "ValueError: invalid literal for int()"

/-- `parse_timestamp_to_seconds` from `shorts.py`: split on `":"`; two parts
→ `int(m)*60 + int(s)`, three parts → `int(h)*3600 + int(m)*60 + int(s)`,
anything else → `0`. -/
def parse_timestamp_to_seconds_shorts (timestamp : String) : Except String Int :=
  let parts := pySplit timestamp ':'
  if parts.length = 2 then do
    let m ← pyInt (parts.getD 0 "")
    let s ← pyInt (parts.getD 1 "")
    pure (m * 60 + s)
  else if parts.length = 3 then do
    let h ← pyInt (parts.getD 0 "")
    let m ← pyInt (parts.getD 1 "")
    let s ← pyInt (parts.getD 2 "")
    pure (h * 3600 + m * 60 + s)
  else
    pure 0

/-- `parse_timestamp_to_seconds` from `bestof.py`: same shape, but the seconds
part goes through Python `float(...)`, modelled as an abstract parser `pyF`
(its behavior is irrelevant to the malformed-timestamp claim, which never
reaches it). -/
def parse_timestamp_to_seconds_bestof (pyF : String → Except String ℚ)
    (timestamp : String) : Except String ℚ :=
  let parts := pySplit timestamp ':'
  if parts.length = 2 then do
    let m ← pyInt (parts.getD 0 "")
    let s ← pyF (parts.getD 1 "")
    pure (m * 60 + s)
  else if parts.length = 3 then do
    let h ← pyInt (parts.getD 0 "")
    let m ← pyInt (parts.getD 1 "")
    let s ← pyF (parts.getD 2 "")
    pure (h * 3600 + m * 60 + s)
  else
    pure 0

/-! ## Shared concrete inputs (the spec's scenario words) -/

/-- Scenario word `("Hi", 0.0, 0.3)`. -/
def wHi : Word := { word := "Hi", start := 0, endT := 3/10 }
/-- Scenario word `("there", 0.35, 0.6)`. -/
def wThere : Word := { word := "there", start := 7/20, endT := 3/5 }
/-- Scenario word `("friend", 1.5, 1.9)`. -/
def wFriend : Word := { word := "friend", start := 3/2, endT := 19/10 }
/-- A word whose text carries surrounding whitespace (as Whisper emits). -/
def wSpacey : Word := { word := " Hi ", start := 0, endT := 1 }

/-- Projection of a `CapWord` to its text/start/end payload. -/
def capTriple (cw : CapWord) : String × ℚ × ℚ := (cw.word, cw.start, cw.endT)
/-- Projection of an input `Word` to its text/start/end payload. -/
def wordTriple (w : Word) : String × ℚ × ℚ := (w.word, w.start, w.endT)
/-- Projection of an input `Word` with its text whitespace-stripped, as
`_build_caption_group` stores it. -/
def strippedTriple (w : Word) : String × ℚ × ℚ := (pyStrip w.word, w.start, w.endT)

/-! ## Partition of the word sequence by the grouping loop (C1) -/

theorem groupStep_flatten (maxW : ℕ) (t : ℚ) (cur : List Word) (w : Word) :
    ((groupStep maxW t cur w).1).flatten ++ (groupStep maxW t cur w).2 = cur ++ [w] := by
  unfold groupStep
  cases h : cur.getLast? with
  | none => by_cases hs : maxW ≤ cur.length <;> simp [h, hs]
  | some prev =>
      by_cases hgap : t < w.start - prev.endT
      · by_cases hs : maxW = 0 <;> simp [h, hgap, hs]
      · by_cases hs : maxW ≤ cur.length <;> simp [h, hgap, hs]

theorem groupLoop_flatten (maxW : ℕ) (t : ℚ) :
    ∀ (ws cur : List Word), (groupLoop maxW t cur ws).flatten = cur ++ ws := by
  intro ws
  induction ws with
  | nil => intro cur; by_cases h : cur = [] <;> simp [groupLoop, h]
  | cons w rest ih =>
      intro cur
      show ((groupStep maxW t cur w).1 ++
        groupLoop maxW t (groupStep maxW t cur w).2 rest).flatten = cur ++ w :: rest
      rw [List.flatten_append, ih, ← List.append_assoc, groupStep_flatten]
      simp

theorem build_caption_group_triples (ws : List Word) :
    ((build_caption_group ws).words).map capTriple = ws.map strippedTriple := by
  show (ws.enum.map _).map capTriple = _
  rw [List.map_map]
  have h : (capTriple ∘ fun p : ℕ × Word =>
      ({ word := pyStrip p.2.word, start := p.2.start, endT := p.2.endT
         index_in_group := p.1 } : CapWord)) = strippedTriple ∘ Prod.snd := by
    funext p; rfl
  rw [h, ← List.map_map, List.enum_map_snd]

/-- **C1 (amended)** For every word list, `max_words_per_group ≥ 1` and
numeric `silence_threshold`, concatenating in order the word lists of the
groups returned by `group_words_by_temporal_proximity` reproduces the input
word sequence exactly up to whitespace-stripping of each word's text: no word
dropped, duplicated, or reordered, timings preserved, every word in exactly
one group. -/
theorem temporal_grouping_partition (words : List Word) (maxW : ℕ) (t : ℚ)
    (h : 1 ≤ maxW) :
    ((group_words_by_temporal_proximity words maxW t).flatMap (·.words)).map capTriple
      = words.map strippedTriple := by
  unfold group_words_by_temporal_proximity
  rw [List.flatMap_def, List.map_map, ← List.flatMap_def, List.map_flatMap]
  have h1 : (fun ws : List Word => ((build_caption_group ws).words).map capTriple)
      = fun ws => ws.map strippedTriple := funext build_caption_group_triples
  simp only [Function.comp]
  rw [h1, List.flatMap_def, ← List.map_flatten, groupLoop_flatten]
  simp

/-- **C1 (counterexample)** The claim as stated fails: for a word whose text
carries surrounding whitespace, the concatenated group word lists do not
reproduce the input texts (they come back stripped by `_build_caption_group`). -/
theorem temporal_grouping_partition_counterexample :
    ¬ (((group_words_by_temporal_proximity [wSpacey] 3 (1/2)).flatMap (·.words)).map capTriple
        = [wSpacey].map wordTriple) := by
  norm_num [group_words_by_temporal_proximity, groupLoop, groupStep,
    build_caption_group, capTriple, wordTriple, wSpacey, List.enum]
  decide

/-- **C1 (witness)** The amended partition equation at the spec's scenario
words. -/
theorem temporal_grouping_partition_witness :
    ((group_words_by_temporal_proximity [wHi, wThere, wFriend] 3 (1/2)).flatMap (·.words)).map capTriple
      = [wHi, wThere, wFriend].map strippedTriple :=
  temporal_grouping_partition [wHi, wThere, wFriend] 3 (1/2) (by norm_num)

/-! ## The silence-break property (C5) -/

/-- Two adjacent words whose inter-word gap does not exceed the silence
threshold. -/
def gapWithin (t : ℚ) (a b : Word) : Prop := b.start - a.endT ≤ t

theorem groupStep_fst_cases (maxW : ℕ) (t : ℚ) (cur : List Word) (w : Word) :
    ∀ g ∈ (groupStep maxW t cur w).1, g = cur ∨ g = [] := by
  intro g hg
  cases h : cur.getLast? with
  | none => simp [groupStep, h] at hg; split_ifs at hg <;> simp_all
  | some prev => simp [groupStep, h] at hg; split_ifs at hg <;> simp_all

theorem groupStep_snd_cases (maxW : ℕ) (t : ℚ) (cur : List Word) (w : Word) :
    (groupStep maxW t cur w).2 = [w] ∨
    ((groupStep maxW t cur w).2 = cur ++ [w] ∧
      ∀ prev, cur.getLast? = some prev → w.start - prev.endT ≤ t) := by
  cases h : cur.getLast? with
  | none =>
      have hcur : cur = [] := List.getLast?_eq_none_iff.mp h
      subst hcur
      by_cases hs : maxW = 0 <;> simp [groupStep, hs, Nat.le_zero]
  | some prev =>
      by_cases hgap : t < w.start - prev.endT
      · left
        by_cases hs : maxW = 0 <;> simp [groupStep, h, hgap, hs, Nat.le_zero]
      · by_cases hs : maxW ≤ cur.length
        · left; simp [groupStep, h, hgap, hs]
        · right
          refine ⟨by simp [groupStep, h, hgap, hs], ?_⟩
          intro p hp
          injection hp with hp
          subst hp
          exact not_lt.mp hgap

theorem groupLoop_chain (maxW : ℕ) (t : ℚ) :
    ∀ (ws cur : List Word), List.Chain' (gapWithin t) cur →
      ∀ g ∈ groupLoop maxW t cur ws, List.Chain' (gapWithin t) g := by
  intro ws
  induction ws with
  | nil =>
      intro cur hc g hg
      by_cases h : cur = []
      · simp [groupLoop, h] at hg
      · simp [groupLoop, h] at hg
        subst hg
        exact hc
  | cons w rest ih =>
      intro cur hc g hg
      simp only [groupLoop] at hg
      rcases List.mem_append.mp hg with h1 | h2
      · rcases groupStep_fst_cases maxW t cur w g h1 with rfl | rfl
        · exact hc
        · simp
      · rcases groupStep_snd_cases maxW t cur w with he | ⟨he, hlast⟩
        · exact ih _ (by rw [he]; simp) g h2
        · refine ih _ ?_ g h2
          rw [he, List.chain'_append]
          refine ⟨hc, by simp, ?_⟩
          intro x hx y hy
          simp at hy
          subst hy
          exact hlast x hx

/-- Default word (placeholder for out-of-range list reads in statements). -/
def wordDefault : Word := { word := "", start := 0, endT := 0 }

/-- Default caption group (placeholder for out-of-range list reads). -/
def emptyCaption : CaptionGroup := { text := "", words := [], start := 0, endT := 0 }

/-- Number of words held by the first `k` groups of `caps`: since the groups
partition the input (see `temporal_grouping_partition`), this is the input
position where group `k` begins. -/
def groupOffset (caps : List CaptionGroup) (k : ℕ) : ℕ :=
  ((caps.take k).map (fun c => c.words.length)).sum

/-- The input word at position `i` was placed into group `k`: `i` falls in the
span of positions covered by group `k` under the partition of
`temporal_grouping_partition`. -/
def wordInGroup (caps : List CaptionGroup) (k i : ℕ) : Prop :=
  k < caps.length ∧ groupOffset caps k ≤ i ∧
    i < groupOffset caps k + ((caps.getD k emptyCaption).words.length)

/-- `groupOffset` at the raw-group level. -/
def rawOffset {α : Type} (gs : List (List α)) (k : ℕ) : ℕ :=
  ((gs.take k).map List.length).sum

theorem flatten_getElem_eq {α : Type} (gs : List (List α)) (k j : ℕ)
    (hk : k < gs.length) (hj : j < (gs.getD k []).length) :
    gs.flatten[rawOffset gs k + j]? = (gs.getD k [])[j]? := by
  induction gs generalizing k with
  | nil => exact absurd hk (by simp)
  | cons g gs ih =>
      cases k with
      | zero =>
          simp only [rawOffset, List.take_zero, List.map_nil, List.sum_nil,
            Nat.zero_add, List.flatten_cons, List.getD] at *
          rw [List.getElem?_append_left (by simpa using hj)]
          simp
      | succ k =>
          have hk2 : k < gs.length := by simpa using hk
          have hj2 : j < (gs.getD k []).length := by
            simpa [List.getD, List.get?_cons_succ] using hj
          have hoff : rawOffset (g :: gs) (k + 1) = g.length + rawOffset gs k := by
            simp [rawOffset, List.take_succ_cons]
          have harr : g.length + rawOffset gs k + j = g.length + (rawOffset gs k + j) := by
            omega
          rw [hoff, List.flatten_cons, harr,
            List.getElem?_append_right (by omega)]
          have hsub : g.length + (rawOffset gs k + j) - g.length = rawOffset gs k + j := by
            omega
          rw [hsub]
          simpa [List.getD, List.get?_cons_succ] using ih k hk2 hj2

theorem build_caption_group_words_length (ws : List Word) :
    (build_caption_group ws).words.length = ws.length := by
  simp [build_caption_group]

theorem groupOffset_map_build (gs : List (List Word)) (k : ℕ) :
    groupOffset (gs.map build_caption_group) k = rawOffset gs k := by
  have hfun : ((fun c : CaptionGroup => c.words.length) ∘ build_caption_group)
      = List.length := by
    funext ws; exact build_caption_group_words_length ws
  simp [groupOffset, rawOffset, ← List.map_take, List.map_map, hfun]

theorem getD_map_build_words_length (gs : List (List Word)) (k : ℕ)
    (hk : k < gs.length) :
    ((gs.map build_caption_group).getD k emptyCaption).words.length
      = (gs.getD k []).length := by
  rw [List.getD_eq_getElem _ _ (by simpa using hk), List.getD_eq_getElem _ _ hk,
    List.getElem_map]
  exact build_caption_group_words_length _

/-- **C5** For every word list, `max_words_per_group ≥ 1` and numeric
`silence_threshold`, whenever `word[i+1].start - word[i].end >
silence_threshold`, the words at positions `i` and `i + 1` are never placed
into the same caption group by `group_words_by_temporal_proximity`. -/
theorem silence_break_property (words : List Word) (maxW : ℕ) (t : ℚ)
    (hmax : 1 ≤ maxW) (i : ℕ) (hi : i + 1 < words.length)
    (hgap : t < (words.getD (i + 1) wordDefault).start
              - (words.getD i wordDefault).endT) (k : ℕ) :
    ¬ (wordInGroup (group_words_by_temporal_proximity words maxW t) k i ∧
       wordInGroup (group_words_by_temporal_proximity words maxW t) k (i + 1)) := by
  rintro ⟨⟨hk1, hlo1, hhi1⟩, _, hlo2, hhi2⟩
  set gs : List (List Word) := groupLoop maxW t [] words with hgs
  have hcaps : group_words_by_temporal_proximity words maxW t
      = gs.map build_caption_group := rfl
  rw [hcaps] at hk1 hlo1 hhi1 hlo2 hhi2
  have hklen : k < gs.length := by simpa using hk1
  rw [groupOffset_map_build, getD_map_build_words_length gs k hklen]
    at hhi1 hhi2
  rw [groupOffset_map_build] at hlo1 hlo2
  obtain ⟨j, rfl⟩ : ∃ j, i = rawOffset gs k + j :=
    ⟨i - rawOffset gs k, by omega⟩
  have hjlen : j + 1 < (gs.getD k []).length := by omega
  have hjl : j < (gs.getD k []).length := by omega
  have hfl : gs.flatten = words := by
    simpa using groupLoop_flatten maxW t words []
  have hiw : rawOffset gs k + j < words.length := by omega
  have hiw2 : rawOffset gs k + j + 1 < words.length := hi
  have e1 : words[rawOffset gs k + j]? = (gs.getD k [])[j]? := by
    rw [← hfl]; exact flatten_getElem_eq gs k j hklen hjl
  have e2 : words[rawOffset gs k + j + 1]? = (gs.getD k [])[j + 1]? := by
    rw [← hfl]
    have harr : rawOffset gs k + j + 1 = rawOffset gs k + (j + 1) := by omega
    rw [harr]
    exact flatten_getElem_eq gs k (j + 1) hklen hjlen
  rw [List.getElem?_eq_getElem hiw, List.getElem?_eq_getElem hjl] at e1
  rw [List.getElem?_eq_getElem hiw2, List.getElem?_eq_getElem hjlen] at e2
  have g1 : words[rawOffset gs k + j] = (gs.getD k [])[j] := Option.some.inj e1
  have g2 : words[rawOffset gs k + j + 1] = (gs.getD k [])[j + 1] :=
    Option.some.inj e2
  have hchain : List.Chain' (gapWithin t) (gs.getD k []) := by
    have hmem : gs.getD k [] ∈ gs := by
      rw [List.getD_eq_getElem _ _ hklen]
      exact List.getElem_mem _
    exact groupLoop_chain maxW t words [] (by simp) _ hmem
  have hR := List.chain'_iff_get.mp hchain j (by omega)
  rw [List.get_eq_getElem, List.get_eq_getElem] at hR
  rw [List.getD_eq_getElem _ _ hiw2, List.getD_eq_getElem _ _ hiw] at hgap
  rw [g1, g2] at hgap
  have hle : ¬ ((gs.getD k [])[j + 1].start - (gs.getD k [])[j].endT ≤ t) :=
    not_le.mpr hgap
  exact hle hR

/-- **C5 (witness)** At the scenario words with threshold 0.5, the words at
positions 1 (`there`) and 2 (`friend`), separated by a 0.9s gap, do not land
in the same group (checked here for group 0). -/
theorem silence_break_property_witness :
    ¬ (wordInGroup (group_words_by_temporal_proximity [wHi, wThere, wFriend] 3 (1/2)) 0 1 ∧
       wordInGroup (group_words_by_temporal_proximity [wHi, wThere, wFriend] 3 (1/2)) 0 2) :=
  silence_break_property [wHi, wThere, wFriend] 3 (1/2) (by norm_num) 1 (by norm_num)
    (by norm_num [List.getD, wThere, wFriend]) 0

/-! ## Silence-removal segments match the (amended) spec description (C2, C3) -/

theorem getLastD_shift {α : Type} (w prev : α) (rest : List α) :
    rest.getLast?.getD w = (w :: rest).getLast?.getD prev := by
  cases rest with
  | nil => simp
  | cons r rs =>
      rw [List.getLast?_cons_cons]
      cases h : (r :: rs).getLast? with
      | none => exact absurd (List.getLast?_eq_none_iff.mp h) (by simp)
      | some x => simp

theorem silenceLoop_foldl (pad minGap : ℚ) :
    ∀ (ws : List Word) (segs : List Segment) (gaps : List Gap) (cs : ℚ) (prev : Word),
      ws.foldl (silenceStep pad minGap)
        (segs ++ [{ start := cs, endT := prev.endT + pad }], gaps, prev)
      = (segs ++ (specSegLoopGt pad minGap cs prev ws).1,
         gaps ++ (specSegLoopGt pad minGap cs prev ws).2,
         ws.getLastD prev) := by
  intro ws
  induction ws with
  | nil => intro segs gaps cs prev; simp [specSegLoopGt]
  | cons w rest ih =>
      intro segs gaps cs prev
      rw [List.foldl_cons]
      by_cases hgap : minGap < w.start - prev.endT
      · have hstep : silenceStep pad minGap
            (segs ++ [{ start := cs, endT := prev.endT + pad }], gaps, prev) w
            = ((segs ++ [{ start := cs, endT := prev.endT + pad }])
                 ++ [{ start := max 0 (w.start - pad), endT := w.endT + pad }],
               gaps ++ [{ start := prev.endT, endT := w.start,
                          duration := w.start - prev.endT }], w) := by
          simp [silenceStep, hgap]
        rw [hstep, ih]
        rw [List.getLastD_cons]
        simp [specSegLoopGt, hgap]
      · have hstep : silenceStep pad minGap
            (segs ++ [{ start := cs, endT := prev.endT + pad }], gaps, prev) w
            = (segs ++ [{ start := cs, endT := w.endT + pad }], gaps, w) := by
          simp [silenceStep, hgap, updateLastEnd, List.getLast?_concat,
            List.dropLast_concat]
        rw [hstep, ih]
        rw [List.getLastD_cons]
        simp [specSegLoopGt, hgap]

/-- **C2 (amended)** In silence-removal mode, for every non-empty word list
the kept segments and removed gaps are exactly as the spec-style walk
describes, with two corrections: a segment break happens only when the gap is
**strictly greater** than `min_gap_duration`, and **every** opened segment's
start (not just the first) is clamped to `≥ 0`.  The first segment opens at
`max(0, words[0].start - padding)`; on a break the current segment closes at
`words[i].end + padding` and the next opens at
`max(0, words[i+1].start - padding)`; otherwise the segment's end is extended
to `words[i+1].end + padding`; the last segment closes at
`words[-1].end + padding`. -/
theorem remove_silence_segments_matches_spec (pad minGap : ℚ)
    (words : List Word) (h : words ≠ []) :
    remove_silence_segments pad minGap words
      = build_segments_spec_gt pad minGap words := by
  cases words with
  | nil => exact absurd rfl h
  | cons w0 rest =>
      have key := silenceLoop_foldl pad minGap rest [] []
        (max 0 (w0.start - pad)) w0
      simp only [List.nil_append] at key
      simp [remove_silence_segments, build_segments_spec_gt, key]

/-- **C2 (witness)** The amended segment/gap equation at the scenario words. -/
theorem remove_silence_segments_matches_spec_witness :
    remove_silence_segments (1/20) (2/5) [wHi, wThere, wFriend]
      = build_segments_spec_gt (1/20) (2/5) [wHi, wThere, wFriend] :=
  remove_silence_segments_matches_spec (1/20) (2/5) [wHi, wThere, wFriend] (by simp)

/-- Counterexample word `("a", 0.0, 0.1)`. -/
def wA : Word := { word := "a", start := 0, endT := 1/10 }
/-- Counterexample word `("b", 0.8, 0.9)`: 0.7s gap after `wA`. -/
def wB : Word := { word := "b", start := 4/5, endT := 9/10 }
/-- Counterexample word `("c", 2.0, 2.1)`: 1.1s gap after `wB`. -/
def wC : Word := { word := "c", start := 2, endT := 21/10 }
/-- Counterexample word `("d", 2.5, 2.6)`: gap after `wC` exactly 0.4s. -/
def wD : Word := { word := "d", start := 5/2, endT := 13/5 }

/-- **C2 (counterexample)** With `padding = 1` and `min_gap_duration = 0.4`,
the code and the claim's literal walk disagree twice on `[wA, wB, wC, wD]`:
the claim splits at the exactly-0.4s gap before `wD` (the code, using strict
`>`, extends instead), and the claim opens the segment after `wA` at the
unclamped `0.8 - 1 = -0.2` (the code clamps to 0). -/
theorem remove_silence_segments_spec_ge_counterexample :
    remove_silence_segments 1 (2/5) [wA, wB, wC, wD]
        = ([{ start := 0, endT := 11/10 }, { start := 0, endT := 19/10 },
            { start := 1, endT := 18/5 }],
           [{ start := 1/10, endT := 4/5, duration := 7/10 },
            { start := 9/10, endT := 2, duration := 11/10 }]) ∧
    build_segments_spec_ge 1 (2/5) [wA, wB, wC, wD]
        = ([{ start := 0, endT := 11/10 }, { start := -1/5, endT := 19/10 },
            { start := 1, endT := 31/10 }, { start := 3/2, endT := 18/5 }],
           [{ start := 1/10, endT := 4/5, duration := 7/10 },
            { start := 9/10, endT := 2, duration := 11/10 },
            { start := 21/10, endT := 5/2, duration := 2/5 }]) ∧
    remove_silence_segments 1 (2/5) [wA, wB, wC, wD]
      ≠ build_segments_spec_ge 1 (2/5) [wA, wB, wC, wD] := by
  refine ⟨?_, ?_, ?_⟩
  · norm_num [remove_silence_segments, silenceStep, updateLastEnd,
      wA, wB, wC, wD, max_def]
  · norm_num [build_segments_spec_ge, specSegLoopGe, wA, wB, wC, wD, max_def]
  · norm_num [remove_silence_segments, build_segments_spec_ge, specSegLoopGe,
      silenceStep, updateLastEnd, wA, wB, wC, wD, max_def]

/-- **C3 (amended)** Scenario: words
`[("Hi",0,0.3), ("there",0.35,0.6), ("friend",1.5,1.9)]`,
`min_gap_duration = 0.4`: gap detection yields exactly one Gap `(0.6, 1.5)`
of duration 0.9, and segment building with `padding = 0.05` yields exactly
two Segments `[0, 0.65]` (the first segment opens at `-0.05` clamped to 0 and
extends through "there" to `0.6 + 0.05`) and `[1.45, 1.95]`. -/
theorem silence_scenario_amended :
    detect_gaps [wHi, wThere, wFriend] (2/5)
        = [{ start := 3/5, endT := 3/2, duration := 9/10 }] ∧
    (remove_silence_segments (1/20) (2/5) [wHi, wThere, wFriend]).1
        = [{ start := 0, endT := 13/20 }, { start := 29/20, endT := 39/20 }] := by
  constructor
  · norm_num [detect_gaps, wHi, wThere, wFriend]
  · norm_num [remove_silence_segments, silenceStep, updateLastEnd,
      wHi, wThere, wFriend, max_def]

/-- **C3 (counterexample)** The claim's first segment `[0, 0.35]` is wrong:
the code's first kept segment also covers "there" and ends at
`0.6 + 0.05 = 0.65`, not at `0.3 + 0.05 = 0.35`. -/
theorem silence_scenario_counterexample :
    (remove_silence_segments (1/20) (2/5) [wHi, wThere, wFriend]).1
      ≠ [{ start := 0, endT := 7/20 }, { start := 29/20, endT := 39/20 }] := by
  norm_num [remove_silence_segments, silenceStep, updateLastEnd,
    wHi, wThere, wFriend, max_def]

/-- **C4** Passing `silence_threshold = None` does **not** disable the
silence rule: the comparison `gap > silence_threshold` raises `TypeError` on
the second word, so the scenario call crashes instead of returning the two
size-bounded groups.  (With the silence rule genuinely never firing — any
sufficiently large numeric threshold — the two groups the claim expects do
come out, confirming the documented intent.) -/
theorem silence_threshold_none_raises :
    group_words_by_temporal_proximity_py [wHi, wThere, wFriend] 2 none
      = .error "TypeError: not supported between instances of float and NoneType" ∧
    group_words_by_temporal_proximity [wHi, wThere, wFriend] 2 (10 ^ 9)
      = [{ text := "Hi there",
           words := [{ word := "Hi", start := 0, endT := 3/10, index_in_group := 0 },
                     { word := "there", start := 7/20, endT := 3/5, index_in_group := 1 }],
           start := 0, endT := 3/5 },
         { text := "friend",
           words := [{ word := "friend", start := 3/2, endT := 19/10, index_in_group := 0 }],
           start := 3/2, endT := 19/10 }] := by
  constructor
  · norm_num [group_words_by_temporal_proximity_py, groupLoopPy, pyGtOpt,
      wHi, wThere, wFriend, Except.map, Bind.bind, Except.bind]
    rfl
  · norm_num [group_words_by_temporal_proximity, groupLoop, groupStep,
      build_caption_group, wHi, wThere, wFriend, List.enum]
    decide

/-! ## Gap detection characterization (C6) -/

/-- **C6** For every word list and `min_gap_duration`, `detect_gaps` emits
exactly one Gap per consecutive pair whose gap `next.start - current.end` is
`≥ min_gap_duration`, with `start = current.end`, `end = next.start` and
`duration = end - start` (hence `≥ min_gap_duration`); the empty and
one-word lists yield no gaps. -/
theorem detect_gaps_characterization (words : List Word) (minGap : ℚ) :
    detect_gaps words minGap
      = (words.zip words.tail).filterMap (fun p =>
          if minGap ≤ p.2.start - p.1.endT
            then some { start := p.1.endT, endT := p.2.start,
                        duration := p.2.start - p.1.endT }
            else none) ∧
    (∀ w : Word, detect_gaps [w] minGap = []) ∧
    detect_gaps [] minGap = [] := by
  refine ⟨?_, fun w => rfl, rfl⟩
  induction words with
  | nil => rfl
  | cons a tl ih =>
      cases tl with
      | nil => rfl
      | cons b rest =>
          show (if minGap ≤ b.start - a.endT then _ else _) ++ detect_gaps (b :: rest) minGap = _
          rw [ih]
          by_cases hg : minGap ≤ b.start - a.endT <;>
            simp [hg, List.zip_cons_cons, List.filterMap_cons]

/-! ## Vertical position trichotomy (C7) -/

/-- **C7** For every position percentage `pct ≤ 100` and canvas height:
`pct ≤ 33` anchors top with margin `⌊pct/100 · height⌋` from the top,
`34 ≤ pct ≤ 66` anchors middle with the margin ignored (0), and `pct > 66`
anchors bottom with margin `⌊(100 - pct)/100 · height⌋` from the bottom; in
particular `pct = 85` gives bottom anchoring with a 15% margin and `pct = 20`
gives top anchoring with a 20% margin. -/
theorem vertical_position_trichotomy (pct h : ℕ) (hp : pct ≤ 100) :
    assAlignmentAnchor (ass_alignment pct) = some (specAnchor pct) ∧
    (pct ≤ 33 → ass_margin_v pct h = h * pct / 100) ∧
    (34 ≤ pct → pct ≤ 66 → ass_margin_v pct h = 0) ∧
    (66 < pct → ass_margin_v pct h = h * (100 - pct) / 100) ∧
    (ass_alignment 85 = 2 ∧ ass_margin_v 85 h = h * 15 / 100) ∧
    (ass_alignment 20 = 8 ∧ ass_margin_v 20 h = h * 20 / 100) := by
  refine ⟨?_, ?_, ?_, ?_, ⟨by norm_num [ass_alignment], ?_⟩,
    by norm_num [ass_alignment], by norm_num [ass_margin_v]⟩
  · by_cases h1 : pct ≤ 33
    · simp [ass_alignment, specAnchor, assAlignmentAnchor, h1]
    · by_cases h2 : pct ≤ 66 <;>
        simp [ass_alignment, specAnchor, assAlignmentAnchor, h1, h2]
  · intro h1; simp [ass_margin_v, h1]
  · intro h1 h2
    have h3 : ¬ pct ≤ 33 := by omega
    simp [ass_margin_v, h3, h2]
  · intro h1
    have h3 : ¬ pct ≤ 33 := by omega
    have h4 : ¬ pct ≤ 66 := by omega
    simp [ass_margin_v, h3, h4]
  · norm_num [ass_margin_v]

/-- **C7 (witness)** The two spec instances at a 1920-pixel-high canvas:
`pct = 85` is bottom-anchored with margin `⌊1920·15/100⌋ = 288`, and
`pct = 20` is top-anchored with margin `⌊1920·20/100⌋ = 384`. -/
theorem vertical_position_trichotomy_witness :
    (ass_alignment 85 = 2 ∧ ass_margin_v 85 1920 = 1920 * 15 / 100) ∧
    (ass_alignment 20 = 8 ∧ ass_margin_v 20 1920 = 1920 * 20 / 100) :=
  ⟨(vertical_position_trichotomy 85 1920 (by norm_num)).2.2.2.2.1,
   (vertical_position_trichotomy 20 1920 (by norm_num)).2.2.2.2.2⟩

/-! ## Font fitting bounds (C8) -/

/-- **C8 (counterexample)** The claim's unconditional bound
`fitted ≥ min_font_size` fails when the target size is already below the
minimum and the text fits: text `"a"` at target 10 measures 6px (fallback
metric), fits in 100px, and `calculate_fit_font_size` returns 10 < 32. -/
theorem font_fit_counterexample :
    calculate_fit_font_size (measure_text_width_fallback "a" 10) 10 100 32 = 10 ∧
    ¬ (32 ≤ calculate_fit_font_size (measure_text_width_fallback "a" 10) 10 100 32) := by
  decide

/-- **C8 (amended)** Whenever `min_size ≤ target_size`, the fitted size is
between `min_size` and `target_size`; and when the measured width exceeds the
available width the result is the proportionally scaled-down
`⌊target · available/measured⌋` floored at `min_size`. -/
theorem font_fit_bounds (width target_size max_width min_size : ℕ)
    (hms : min_size ≤ target_size) :
    calculate_fit_font_size width target_size max_width min_size ≤ target_size ∧
    min_size ≤ calculate_fit_font_size width target_size max_width min_size ∧
    (max_width < width →
      calculate_fit_font_size width target_size max_width min_size
        = max (target_size * max_width / width) min_size) := by
  unfold calculate_fit_font_size
  by_cases hw : width ≤ max_width
  · simp only [hw, if_pos]
    exact ⟨le_refl _, hms, fun hlt => absurd hw (by omega)⟩
  · rw [if_neg hw]
    have hscaled : target_size * max_width / width ≤ target_size := by
      apply Nat.div_le_of_le_mul
      calc target_size * max_width ≤ target_size * width := by
            apply Nat.mul_le_mul_left
            omega
        _ = width * target_size := by ring
    exact ⟨max_le hscaled hms, le_max_right _ _, fun _ => rfl⟩

/-- **C8 (witness)** A long text at target 72 in a 100px-wide box with
minimum 32: the fitted size lies in `[32, 72]`. -/
theorem font_fit_bounds_witness :
    calculate_fit_font_size (measure_text_width_fallback "a long caption text" 72) 72 100 32 ≤ 72 ∧
    32 ≤ calculate_fit_font_size (measure_text_width_fallback "a long caption text" 72) 72 100 32 :=
  ⟨(font_fit_bounds (measure_text_width_fallback "a long caption text" 72) 72 100 32 (by norm_num)).1,
   (font_fit_bounds (measure_text_width_fallback "a long caption text" 72) 72 100 32 (by norm_num)).2.1⟩

/-! ## One dialogue line per word, with the spec's intervals (C9) -/

theorem dialogueLinesAux_intervals (e : ℚ) :
    ∀ (ws : List CapWord) (i : ℕ),
      (dialogueLinesAux e i ws).map (fun l => (l.lineStart, l.lineEnd))
        = (ws.map (·.start)).zip ((ws.tail.map (·.start)) ++ [e]) := by
  intro ws
  induction ws with
  | nil => intro i; rfl
  | cons w rest ih =>
      intro i
      cases rest with
      | nil => rfl
      | cons x rs =>
          show ((w.start, x.start) :: _) = _
          simp only [List.map_cons, List.tail_cons, List.zip_cons_cons]
          rw [ih (i + 1)]
          simp

theorem dialogueLinesAux_indices (e : ℚ) :
    ∀ (ws : List CapWord) (i : ℕ),
      (dialogueLinesAux e i ws).map (·.highlightIdx)
        = (List.range ws.length).map (· + i) := by
  intro ws
  induction ws with
  | nil => intro i; rfl
  | cons w rest ih =>
      intro i
      show (i :: _) = _
      rw [List.length_cons, List.range_succ_eq_map, List.map_cons, List.map_map,
        ih (i + 1)]
      simp only [Nat.zero_add, List.map_map]
      congr 1
      apply List.map_congr_left
      intro a _
      simp [Function.comp]
      omega

/-- **C9** For every list of caption groups, the event section of
`generate_ass_subtitles` emits exactly one timed dialogue line per
(group, word index `i`), in order, whose active interval is
`[word[i].start, word[i+1].start)` — or `[word[i].start, group.end)` for the
group's last word — and whose highlighted word is word `i`. -/
theorem dialogue_lines_one_per_word (captions : List CaptionGroup) :
    (generate_ass_dialogue_lines captions).map (fun l => (l.lineStart, l.lineEnd))
      = captions.flatMap specIntervals ∧
    (generate_ass_dialogue_lines captions).map (·.highlightIdx)
      = captions.flatMap (fun c => List.range c.words.length) := by
  constructor
  · rw [generate_ass_dialogue_lines, List.map_flatMap]
    have hf : (fun c : CaptionGroup =>
        (dialogueLinesAux c.endT 0 c.words).map (fun l => (l.lineStart, l.lineEnd)))
        = specIntervals := by
      funext c
      rw [dialogueLinesAux_intervals]
      rfl
    rw [hf]
  · rw [generate_ass_dialogue_lines, List.map_flatMap]
    have hf : (fun c : CaptionGroup =>
        (dialogueLinesAux c.endT 0 c.words).map (·.highlightIdx))
        = fun c => List.range c.words.length := by
      funext c
      rw [dialogueLinesAux_indices]
      simp
    rw [hf]

/-! ## Malformed timestamps silently parse as 0 (C10) -/

/-- **C10** For every timestamp string that does not split on `":"` into
exactly 2 or 3 parts, both copies of `parse_timestamp_to_seconds`
(`shorts.py` and `bestof.py`, the latter for any behavior of the
seconds-part `float` parser) return 0 instead of raising: a malformed
externally supplied Moment timestamp is silently read as 0 seconds. -/
theorem parse_timestamp_malformed_returns_zero (s : String)
    (h2 : (pySplit s ':').length ≠ 2) (h3 : (pySplit s ':').length ≠ 3) :
    parse_timestamp_to_seconds_shorts s = .ok 0 ∧
    ∀ pyF : String → Except String ℚ,
      parse_timestamp_to_seconds_bestof pyF s = .ok 0 := by
  constructor
  · unfold parse_timestamp_to_seconds_shorts
    rw [if_neg h2, if_neg h3]
    rfl
  · intro pyF
    unfold parse_timestamp_to_seconds_bestof
    rw [if_neg h2, if_neg h3]
    rfl

/-- **C10 (witness)** `"1:2:3:4"` splits into 4 parts, so both parsers
return 0. -/
theorem parse_timestamp_malformed_returns_zero_witness :
    parse_timestamp_to_seconds_shorts "1:2:3:4" = .ok 0 ∧
    ∀ pyF : String → Except String ℚ,
      parse_timestamp_to_seconds_bestof pyF "1:2:3:4" = .ok 0 :=
  parse_timestamp_malformed_returns_zero "1:2:3:4" (by decide) (by decide)
